import Mathlib

/-!
Shallow embedding of the connection-pool multiplexing core of the zmq4
repository (`msgio.go`): the readiness-gate `semaphore`, the fan-in
`qreader`, the fan-out `mwriter` and the load-balanced `lbwriter`, together
with theorems settling the frozen claims about them.

Conventions of the embedding:
* Go channels that are only ever closed (the semaphore's `ready` channel)
  are a `Bool` recording whether `close` has run; nothing ever sends on
  that channel, so a receive completes exactly when it is closed and then
  yields `ok = false`.
* Bounded message channels (`qreader.c`, `lbwriter.c`, capacity 10) are a
  `List Msg` holding the buffered messages in FIFO order.
* A Go call that can block is an `Option`-valued function, `none` meaning
  the call has not returned (it is parked on a channel or on the gate).
* A run-time fault (closing an already-closed channel) is a dedicated
  `Bool` flag or an `Option` result, as noted at each definition.
* The underlying `Conn` read/write/close results are oracles
  (`Nat → Option ZErr`, `Msg → Bool`, ...) because the transport is an
  external collaborator of this core.
-/

/-- Error values observable through the pools: the context-cancellation
error returned by `ctx.Err()`, or a connection-level I/O error. -/
inductive ZErr where
  | ctxCanceled : ZErr
  | connErr : Nat → ZErr
  deriving DecidableEq, Repr

/-- Modelled from the spec: a Message is an opaque payload unit (an ordered
sequence of frames) plus an associated failure indicator.  The Go `Msg`
struct is declared outside the pool file; only its frames and its `err`
field are visible to the pools. -/
structure Msg where
  frames : List (List Nat)
  err : Option ZErr
  deriving DecidableEq, Repr

/-- Zero value of `Msg`, as produced by `var msg Msg` in Go: no frames and
a nil `err` field. -/
def freshMsg : Msg := ⟨[], none⟩

/-- State of the readiness gate `semaphore`: `ready` is `true` once the
`ready` channel has been closed.  Nothing ever sends on the channel. -/
structure semaphore where
  ready : Bool
  deriving DecidableEq, Repr

/-- Gate state made by `newSemaphore`: a fresh, still-open channel. -/
def semaphore.new : semaphore := ⟨false⟩

/-- Program counter of one thread executing `semaphore.enable`:
`poll` is about to evaluate the `select` (receive from `ready` vs
`default`); `clos` has committed to the `default` branch and is about to
run `close(sem.ready)`; `fin` has returned. -/
inductive EnPc where
  | poll : EnPc
  | clos : EnPc
  | fin : EnPc
  deriving DecidableEq, Repr

/-- One micro-step of a thread inside `semaphore.enable`, given the thread
pc and the shared (ready, fault) state.  At `poll`: if the channel is
already closed the receive case fires with `ok = false`, so the guarded
inner `close` is dead and the call returns; otherwise the `default` branch
is chosen, leaving the `close` still to run.  At `clos`: `close` on an
already-closed channel faults; otherwise it closes the channel. -/
def enThreadStep (pc : EnPc) (ready fault : Bool) : EnPc × Bool × Bool :=
  match pc with
  | EnPc.poll => if ready then (EnPc.fin, ready, fault) else (EnPc.clos, ready, fault)
  | EnPc.clos => if ready then (EnPc.fin, ready, true) else (EnPc.fin, true, fault)
  | EnPc.fin => (EnPc.fin, ready, fault)

/-- Shared state of two threads, A and B, each running `semaphore.enable`
on the same gate (as two unsynchronized `lbwriter.addConn` callers do). -/
structure EnRace where
  ready : Bool
  fault : Bool
  pcA : EnPc
  pcB : EnPc
  deriving DecidableEq, Repr

/-- Run one micro-step of thread A (`thr = true`) or B (`thr = false`). -/
def enRaceStep (s : EnRace) (thr : Bool) : EnRace :=
  if thr then
    match enThreadStep s.pcA s.ready s.fault with
    | (pc, r, f) => { s with pcA := pc, ready := r, fault := f }
  else
    match enThreadStep s.pcB s.ready s.fault with
    | (pc, r, f) => { s with pcB := pc, ready := r, fault := f }

/-- Run a schedule (a list of thread choices) from a state. -/
def enRaceRun (sched : List Bool) (s : EnRace) : EnRace :=
  sched.foldl enRaceStep s

/-- Both threads poised to call `enable` on a fresh gate. -/
def enRaceInit : EnRace := ⟨false, false, EnPc.poll, EnPc.poll⟩

/-- Serialized execution of `semaphore.enable` (poll and close with no
interleaving, as under the `qreader`/`mwriter` mutex): returns the new
gate state and whether the call faulted. -/
def semaphore.enable (s : semaphore) : semaphore × Bool :=
  match enThreadStep EnPc.poll s.ready false with
  | (EnPc.clos, r, f) =>
      match enThreadStep EnPc.clos r f with
      | (_, r2, f2) => (⟨r2⟩, f2)
  | (_, r, f) => (⟨r⟩, f)

/-- Model of `semaphore.lock` (`<-sem.ready`): the receive completes
exactly when the channel is closed, i.e. when the gate is ready. -/
def semaphore.lockCompletes (s : semaphore) : Bool := s.ready

/-- First non-nil error of a list of error results: the value of a Go
`errgroup.Wait` (first error reported) or of a first-error accumulation
loop, with the results taken in list order. -/
def firstErr : List (Option ZErr) → Option ZErr
  | [] => none
  | none :: rest => firstErr rest
  | some e :: _ => some e

/-- Removal of the first occurrence of an adapter from a registry list, as
`rmConn` does with `append(xs[:cur], xs[cur+1:]...)` after finding the
first index whose entry equals the argument; a missing adapter leaves the
list unchanged.  Adapters are identified by `Nat` ids standing for their
pointers. -/
def removeFirst : List Nat → Nat → List Nat
  | [], _ => []
  | x :: xs, r => if x = r then xs else x :: removeFirst xs r

/-- Occurrence count of a message value in a buffer. -/
def mcount (m : Msg) : List Msg → Nat
  | [] => 0
  | x :: xs => (if x = m then 1 else 0) + mcount m xs

/-- State of the fan-in pool `qreader`: the readiness gate, the registry
`rs` of reader adapters (by id) and the shared bounded channel `c`
(capacity 10) holding buffered messages in FIFO order. -/
structure qreader where
  sem : semaphore
  rs : List Nat
  c : List Msg
  deriving DecidableEq, Repr

/-- Pool state made by `newQReader`: empty registry, empty queue, gate not
yet enabled. -/
def qreader.new : qreader := ⟨semaphore.new, [], []⟩

/-- Registry/gate effect of `qreader.addConn`: under the mutex, enable the
gate and append the adapter.  (The spawned `listen` worker is modelled
separately by `qreader.listen`.) -/
def qreader.addConn (st : qreader) (r : Nat) : qreader :=
  { st with sem := (st.sem.enable).1, rs := st.rs ++ [r] }

/-- Registry effect of `qreader.rmConn`: drop the first matching entry. -/
def qreader.rmConn (st : qreader) (r : Nat) : qreader :=
  { st with rs := removeFirst st.rs r }

/-- Model of `qreader.read`: first `q.sem.lock()` (the call is parked,
`none`, while the gate is closed), then the `select` between `ctx.Done()`
and a receive from `q.c`; either way the call returns `msg.err` of the
caller's message variable, which the cancellation branch leaves untouched.
`cancelled` is whether `ctx.Done()` is ready; `pick` resolves the `select`
in favour of the cancellation branch when both branches are ready.
The result is the returned error, the caller's message variable after the
call, and the remaining queue. -/
def qreader.read (pick cancelled : Bool) (st : qreader) (msg : Msg) :
    Option (Option ZErr × Msg × List Msg) :=
  if !st.sem.lockCompletes then none
  else
    match cancelled, st.c with
    | true, [] => some (msg.err, msg, [])
    | false, [] => none
    | false, m :: rest => some (m.err, m, rest)
    | true, m :: rest =>
        if pick then some (msg.err, msg, m :: rest) else some (m.err, m, rest)

/-- Model of `qreader.Close`: close every registered adapter through an
errgroup, return the first error reported by `Wait` (taken in list order
here), and set the registry to nil.  `cr` gives each adapter's `Close`
result. -/
def qreader.Close (cr : Nat → Option ZErr) (st : qreader) :
    Option ZErr × qreader :=
  (firstErr (st.rs.map cr), { st with rs := [] })

/-- Exit condition of one `qreader.listen` worker over a finite prefix of
its adapter's reads. -/
inductive ListenExit where
  | onCancel : ListenExit
  | onErr : ListenExit
  | running : ListenExit
  deriving DecidableEq, Repr

/-- Result of running one `qreader.listen` worker: the messages it pushed
onto the shared queue in order, how it stopped (`running` when the given
read prefix was exhausted with the worker still looping), and whether the
deferred `q.rmConn(r)` and `r.Close()` ran (they run on every return). -/
structure ListenRes where
  enq : List Msg
  stop : ListenExit
  removed : Bool
  closedConn : Bool
  deriving DecidableEq, Repr

/-- Loop of `qreader.listen`: at iteration `i` the worker blocks in
`r.read` producing `reads` head (failure embedded in its `err`), then
selects on `ctx.Done()` (`cz i`): if cancellation is ready it returns
without enqueuing; otherwise it enqueues the message and returns if the
read had failed. -/
def qreader.listenAux (cz : Nat → Bool) :
    List Msg → Nat → List Msg → ListenRes
  | [], _, acc => ⟨acc, ListenExit.running, false, false⟩
  | msg :: rest, i, acc =>
      if cz i then ⟨acc, ListenExit.onCancel, true, true⟩
      else if msg.err.isSome then ⟨acc ++ [msg], ListenExit.onErr, true, true⟩
      else qreader.listenAux cz rest (i + 1) (acc ++ [msg])

/-- One `qreader.listen` worker run from its start. -/
def qreader.listen (cz : Nat → Bool) (reads : List Msg) : ListenRes :=
  qreader.listenAux cz reads 0 []

/-- Registry operations driven by the owning socket on a read pool. -/
inductive QOp where
  | add : Nat → QOp
  | remove : Nat → QOp
  deriving DecidableEq, Repr

/-- Whether a pool operation is an `addConn`. -/
def QOp.isAdd : QOp → Bool
  | QOp.add _ => true
  | QOp.remove _ => false

/-- Apply one registry operation to a `qreader`. -/
def qreader.applyOp (st : qreader) : QOp → qreader
  | QOp.add r => st.addConn r
  | QOp.remove r => st.rmConn r

/-- Run a sequence of registry operations on a fresh `qreader`. -/
def qreader.runOps (ops : List QOp) : qreader :=
  ops.foldl qreader.applyOp qreader.new

/-- State of the fan-out pool `mwriter`: readiness gate and registry of
writer adapters. -/
structure mwriter where
  sem : semaphore
  ws : List Nat
  deriving DecidableEq, Repr

/-- Pool state made by `newMWriter`. -/
def mwriter.new : mwriter := ⟨semaphore.new, []⟩

/-- `mwriter.addConn`: under the mutex, enable the gate and append. -/
def mwriter.addConn (st : mwriter) (w : Nat) : mwriter :=
  { st with sem := (st.sem.enable).1, ws := st.ws ++ [w] }

/-- `mwriter.rmConn`: drop the first matching registry entry. -/
def mwriter.rmConn (st : mwriter) (w : Nat) : mwriter :=
  { st with ws := removeFirst st.ws w }

/-- Model of `mwriter.write`: `w.sem.lock()` (parked, `none`, while the
gate is closed), then one errgroup goroutine per registered adapter, each
running `ww.write(ctx, msg)` — which calls `SendMsg` and never consults
the context, so every adapter is attempted — and `grp.Wait()`, which waits
for all of them and returns the first non-nil error (taken in list order
here).  `res` gives each adapter's write result; the returned pair is
`Wait`'s error and the number of adapters attempted. -/
def mwriter.write (res : Nat → Option ZErr) (st : mwriter) :
    Option (Option ZErr × Nat) :=
  if st.sem.lockCompletes then some (firstErr (st.ws.map res), st.ws.length)
  else none

/-- Loop of `mwriter.Close`: close each adapter in order, keeping the
first non-nil error (`if e != nil && err == nil`), and record each adapter
actually closed (there is no early exit). -/
def mwriter.closeLoop (cr : Nat → Option ZErr) :
    List Nat → Option ZErr → List Nat → Option ZErr × List Nat
  | [], err, acc => (err, acc)
  | ww :: rest, err, acc =>
      mwriter.closeLoop cr rest
        (if (cr ww).isSome && err.isNone then cr ww else err) (acc ++ [ww])

/-- Model of `mwriter.Close`: run the close loop over the registry, then
set it to nil.  Returns `Close`'s error, the adapters whose `Close` was
attempted, and the new pool state. -/
def mwriter.Close (cr : Nat → Option ZErr) (st : mwriter) :
    Option ZErr × List Nat × mwriter :=
  match mwriter.closeLoop cr st.ws none [] with
  | (err, closedWs) => (err, closedWs, { st with ws := [] })

/-- State of the load-balanced pool `lbwriter`: readiness gate, the shared
bounded channel `c` (capacity 10), and whether `c` has been closed. -/
structure lbwriter where
  sem : semaphore
  c : List Msg
  closed : Bool
  deriving DecidableEq, Repr

/-- Pool state made by `newLBWriter`. -/
def lbwriter.new : lbwriter := ⟨semaphore.new, [], false⟩

/-- Gate effect of `lbwriter.addConn`: enable the gate (unsynchronized —
see the race model above) and spawn a `listen` worker, modelled separately
by `LBStep`. -/
def lbwriter.addConn (st : lbwriter) : lbwriter :=
  { st with sem := (st.sem.enable).1 }

/-- Model of `lbwriter.Close`: `close(lw.c)`.  Closing an already-closed
Go channel faults; `none` models that fault. -/
def lbwriter.Close (st : lbwriter) : Option lbwriter :=
  if st.closed then none else some { st with closed := true }

/-- Model of `lbwriter.write`: `lw.sem.lock()` (parked, `none`, while the
gate is closed), then the `select` between `ctx.Done()` (returning
`ctx.Err()`) and sending `msg` on `lw.c` (returning nil).  The send branch
is ready when the open channel has buffer room; `pick` resolves the
`select` in favour of the cancellation branch when both are ready.  The
result is the returned error and the queue after the call; `none` means
the call is still blocked. -/
def lbwriter.write (pick cancelled : Bool) (st : lbwriter) (msg : Msg) :
    Option (Option ZErr × List Msg) :=
  if !st.sem.lockCompletes then none
  else
    let canSend := !st.closed && decide (st.c.length < 10)
    if cancelled && (!canSend || pick) then some (some ZErr.ctxCanceled, st.c)
    else if canSend then some (none, st.c ++ [msg])
    else none

/-- Status of one `lbwriter.listen` worker: parked in the `select` waiting
for a message, or holding a message it pulled and is writing out. -/
inductive WorkerSt where
  | idle : WorkerSt
  | holding : Msg → WorkerSt
  deriving DecidableEq, Repr

/-- Count of a message value held by a worker. -/
def holdCount (m : Msg) : WorkerSt → Nat
  | WorkerSt.idle => 0
  | WorkerSt.holding m2 => if m2 = m then 1 else 0

/-- Configuration of the load-balanced delivery loop: the shared queue,
one worker, and the multiset (as a list) of messages delivered so far. -/
structure LBSys where
  queue : List Msg
  worker : WorkerSt
  delivered : List Msg
  deriving DecidableEq, Repr

/-- Total number of copies of a message value in a configuration: in the
queue, held by the worker, or delivered. -/
def msgCount (m : Msg) (s : LBSys) : Nat :=
  mcount m s.queue + holdCount m s.worker + mcount m s.delivered

/-- One iteration step of `lbwriter.listen`: an idle worker pulls the head
message from the channel; a worker holding `m` runs `w.write(ctx, m)`
(whether it fails is the oracle `fail`) and, on failure, re-sends the same
message on `lw.c` and continues its loop (it becomes idle again, it does
not exit); on success the message is delivered and the worker loops. -/
inductive LBStep (fail : Msg → Bool) : LBSys → LBSys → Prop
  | dequeue (m : Msg) (rest d : List Msg) :
      LBStep fail ⟨m :: rest, WorkerSt.idle, d⟩ ⟨rest, WorkerSt.holding m, d⟩
  | deliverOk (m : Msg) (q d : List Msg) (h : fail m = false) :
      LBStep fail ⟨q, WorkerSt.holding m, d⟩ ⟨q, WorkerSt.idle, d ++ [m]⟩
  | deliverFail (m : Msg) (q d : List Msg) (h : fail m = true) :
      LBStep fail ⟨q, WorkerSt.holding m, d⟩ ⟨q ++ [m], WorkerSt.idle, d⟩

/-- Concrete message with a nil error, for witnesses. -/
def mOk : Msg := ⟨[[1]], none⟩

/-- Concrete message carrying a read failure, for witnesses. -/
def mBad : Msg := ⟨[[2]], some (ZErr.connErr 3)⟩

/-- Context that is never cancelled. -/
def czFalse : Nat → Bool := fun _ => false

/-- Context that is cancelled from the start. -/
def czTrue : Nat → Bool := fun _ => true

/-- Write/close oracle where exactly adapter 1 fails. -/
def resOne : Nat → Option ZErr := fun w => if w = 1 then some (ZErr.connErr 7) else none

/-- Load-balanced pool with the gate open, an empty open queue. -/
def lbReady : lbwriter := ⟨⟨true⟩, [], false⟩

/-- Fan-out pool with the gate open and three registered adapters. -/
def mwReady : mwriter := ⟨⟨true⟩, [0, 1, 2]⟩

/-- Fan-in pool with the gate open and an empty queue. -/
def qrReady : qreader := ⟨⟨true⟩, [], []⟩

/-- Delivery oracle where every write fails. -/
def failAll : Msg → Bool := fun _ => true

/-- Worker holding `mOk`, nothing queued or delivered. -/
def sysHold : LBSys := ⟨[], WorkerSt.holding mOk, []⟩

/-- Configuration after the failed write of `mOk` is requeued. -/
def sysReq : LBSys := ⟨[mOk], WorkerSt.idle, []⟩

theorem semaphore_enable_serialized (s : semaphore) :
    s.enable = (⟨true⟩, false) := by
  cases s with
  | mk r => cases r <;> rfl

theorem firstErr_eq_none (l : List (Option ZErr)) :
    firstErr l = none ↔ ∀ e ∈ l, e = none := by
  induction l with
  | nil => simp [firstErr]
  | cons h t ih =>
      cases h with
      | none => simp [firstErr, ih]
      | some e => simp [firstErr]

theorem mcount_append (m : Msg) (l1 l2 : List Msg) :
    mcount m (l1 ++ l2) = mcount m l1 + mcount m l2 := by
  induction l1 with
  | nil => simp [mcount]
  | cons x xs ih => simp [mcount, ih]; omega

theorem mwriter_closeLoop_some (cr : Nat → Option ZErr) (l : List Nat)
    (e : ZErr) (acc : List Nat) :
    mwriter.closeLoop cr l (some e) acc = (some e, acc ++ l) := by
  induction l generalizing acc with
  | nil => simp [mwriter.closeLoop]
  | cons x xs ih => simp [mwriter.closeLoop, ih]

theorem mwriter_closeLoop_none (cr : Nat → Option ZErr) (l : List Nat)
    (acc : List Nat) :
    mwriter.closeLoop cr l none acc = (firstErr (l.map cr), acc ++ l) := by
  induction l generalizing acc with
  | nil => simp [mwriter.closeLoop, firstErr]
  | cons x xs ih =>
      cases hx : cr x with
      | none => simp [mwriter.closeLoop, hx, firstErr, ih]
      | some e => simp [mwriter.closeLoop, hx, firstErr, mwriter_closeLoop_some]

theorem lbstep_count (fail : Msg → Bool) (s t : LBSys)
    (h : LBStep fail s t) (m : Msg) : msgCount m t = msgCount m s := by
  cases h with
  | dequeue m2 rest d =>
      by_cases hm : m2 = m
      · simp [msgCount, mcount, holdCount, hm]
        omega
      · simp [msgCount, mcount, holdCount, hm]
  | deliverOk m2 q d hf =>
      by_cases hm : m2 = m
      · simp [msgCount, mcount, holdCount, mcount_append, hm]
        omega
      · simp [msgCount, mcount, holdCount, mcount_append, hm]
  | deliverFail m2 q d hf =>
      by_cases hm : m2 = m
      · simp [msgCount, mcount, holdCount, mcount_append, hm]
      · simp [msgCount, mcount, holdCount, mcount_append, hm]

theorem qreader_foldl_ready (ops : List QOp) (st : qreader) :
    (ops.foldl qreader.applyOp st).sem.ready = (st.sem.ready || ops.any QOp.isAdd) := by
  induction ops generalizing st with
  | nil => simp
  | cons o os ih =>
      cases o with
      | add r =>
          simp [qreader.applyOp, qreader.addConn, QOp.isAdd, ih,
            semaphore_enable_serialized]
      | remove r =>
          simp [qreader.applyOp, qreader.rmConn, QOp.isAdd, ih]

theorem qreader_listenAux_err (cz : Nat → Bool) (bad : Msg)
    (hc : ∀ i, cz i = false) (hb : bad.err.isSome = true) :
    ∀ goods : List Msg, (∀ m ∈ goods, m.err = none) → ∀ i acc,
      qreader.listenAux cz (goods ++ [bad]) i acc =
        ⟨acc ++ goods ++ [bad], ListenExit.onErr, true, true⟩ := by
  intro goods
  induction goods with
  | nil =>
      intro _ i acc
      simp [qreader.listenAux, hc i, hb]
  | cons g gs ih =>
      intro hg i acc
      have hge : g.err = none := hg g (by simp)
      have hrec := ih (fun m hm => hg m (by simp [hm])) (i + 1) (acc ++ [g])
      simp [qreader.listenAux, hc i, hge, hrec]

theorem qreader_listenAux_cancel (cz : Nat → Bool) :
    ∀ (goods : List Msg) (i : Nat) (acc : List Msg) (m2 : Msg) (rest : List Msg),
      (∀ j, j < goods.length → cz (i + j) = false) →
      cz (i + goods.length) = true →
      (∀ m ∈ goods, m.err = none) →
      qreader.listenAux cz (goods ++ m2 :: rest) i acc =
        ⟨acc ++ goods, ListenExit.onCancel, true, true⟩ := by
  intro goods
  induction goods with
  | nil =>
      intro i acc m2 rest _ hk _
      simp only [Nat.add_zero, List.length_nil] at hk
      simp [qreader.listenAux, hk]
  | cons g gs ih =>
      intro i acc m2 rest hlt hk hg
      have h0 : cz i = false := by simpa using hlt 0 (by simp)
      have hge : g.err = none := hg g (by simp)
      have hrec := ih (i + 1) (acc ++ [g]) m2 rest
        (fun j hj => by
          have e : i + 1 + j = i + (j + 1) := by omega
          rw [e]
          exact hlt (j + 1) (by simp; omega))
        (by
          have e : i + 1 + gs.length = i + (g :: gs).length := by simp; omega
          rw [e]
          exact hk)
        (fun m hm => hg m (by simp [hm]))
      simp [qreader.listenAux, h0, hge, hrec]

theorem mcount_zero_of_err (bad : Msg) (hb : bad.err.isSome = true) :
    ∀ goods : List Msg, (∀ m ∈ goods, m.err = none) → mcount bad goods = 0 := by
  intro goods
  induction goods with
  | nil => intro _; rfl
  | cons g gs ih =>
      intro hg
      have hge : g.err = none := hg g (by simp)
      have hne : ¬ g = bad := by
        intro he
        rw [he] at hge
        rw [hge] at hb
        simp at hb
      simp [mcount, hne, ih (fun m hm => hg m (by simp [hm]))]

/-- C1: the claim says `enable()` never faults even when called
concurrently by multiple `addConn` callers.  `lbwriter.addConn` calls
`enable` with no lock, so two callers can interleave: both poll the
`select` while the gate is still open, choose the `default` branch, and
then both run `close(sem.ready)` — the second close is a close of an
already-closed channel, a run-time fault.  This theorem evaluates the
interleaved execution at that schedule and shows the fault occurring. -/
theorem semaphore_enable_concurrent_double_close :
    (enRaceRun [true, false, true, false] enRaceInit).fault = true := rfl

/-- C2 counterexample: the first `lbwriter.Close` succeeds, but a second
`lbwriter.Close` closes the already-closed channel `lw.c` and faults
(`none`), so Close is not idempotent for all three pools alike. -/
theorem lbwriter_close_twice_faults :
    (lbwriter.Close lbwriter.new).isSome = true ∧
    Option.bind (lbwriter.Close lbwriter.new) lbwriter.Close = none :=
  ⟨rfl, rfl⟩

/-- C2 amended: a second `Close` after a first `Close` returns nil without
faulting for `qreader` and `mwriter` (their registries are nil after the
first call, so the second call closes nothing); it is `lbwriter.Close`
that faults on the second call. -/
theorem close_idempotent_qreader_mwriter (cr : Nat → Option ZErr)
    (qs : qreader) (ms : mwriter) :
    (qreader.Close cr (qreader.Close cr qs).2).1 = none ∧
    (qreader.Close cr (qreader.Close cr qs).2).2.rs = [] ∧
    (mwriter.Close cr (mwriter.Close cr ms).2.2).1 = none ∧
    (mwriter.Close cr (mwriter.Close cr ms).2.2).2.2.ws = [] :=
  ⟨rfl, rfl, rfl, rfl⟩

/-- C3 counterexample: `qreader.read` with a context cancelled before any
message arrives (empty queue) returns the caller's untouched `msg.err`,
which is nil for a fresh `Msg` — not the context's cancellation error. -/
theorem qreader_read_cancelled_returns_nil :
    qreader.read true true qrReady freshMsg = some (none, freshMsg, []) ∧
    qreader.read true true qrReady freshMsg ≠
      some (some ZErr.ctxCanceled, freshMsg, []) := by
  constructor
  · rfl
  · decide

/-- C3 amended: on cancellation before completion, `lbwriter.write` does
return the context's cancellation error (with nothing enqueued), but
`qreader.read` returns the caller's message error field unchanged — nil
for a fresh message — not a distinct cancellation error. -/
theorem cancelled_error_surfacing (pick : Bool) (st : lbwriter) (m : Msg)
    (qst : qreader) (msg : Msg)
    (h1 : st.sem.ready = true) (h2 : st.closed = false)
    (h3 : qst.sem.ready = true) (h4 : qst.c = []) :
    (∀ e q, lbwriter.write pick true st m = some (some e, q) →
      e = ZErr.ctxCanceled ∧ q = st.c) ∧
    qreader.read pick true qst msg = some (msg.err, msg, []) := by
  constructor
  · intro e q hq
    by_cases hd : st.c.length < 10
    · cases pick with
      | true =>
          simp [lbwriter.write, semaphore.lockCompletes, h1, h2, hd] at hq
          exact ⟨hq.1.symm, hq.2.symm⟩
      | false =>
          simp [lbwriter.write, semaphore.lockCompletes, h1, h2, hd] at hq
    · simp [lbwriter.write, semaphore.lockCompletes, h1, h2, hd] at hq
      exact ⟨hq.1.symm, hq.2.symm⟩
  · simp [qreader.read, semaphore.lockCompletes, h3, h4]

theorem cancelled_error_surfacing_witness :
    qreader.read true true qrReady freshMsg = some (freshMsg.err, freshMsg, []) :=
  (cancelled_error_surfacing true lbReady mOk qrReady freshMsg rfl rfl rfl rfl).2

/-- C4: with the gate open, `mwriter.write` attempts the write on every
registered adapter (`SendMsg` never consults the context, so nothing short
circuits), waits for all of them (`grp.Wait`), returns `Wait`'s first
failure, and that result is non-nil exactly when at least one adapter
failed. -/
theorem mwriter_write_fanout (res : Nat → Option ZErr) (st : mwriter)
    (h : st.sem.ready = true) :
    mwriter.write res st = some (firstErr (st.ws.map res), st.ws.length) ∧
    (firstErr (st.ws.map res) ≠ none ↔ ∃ w ∈ st.ws, res w ≠ none) := by
  constructor
  · simp [mwriter.write, semaphore.lockCompletes, h]
  · rw [Ne, firstErr_eq_none]
    constructor
    · intro hno
      push_neg at hno
      obtain ⟨e, he, hne⟩ := hno
      obtain ⟨w, hw, rfl⟩ := List.mem_map.mp he
      exact ⟨w, hw, hne⟩
    · rintro ⟨w, hw, hne⟩ hall
      exact hne (hall (res w) (List.mem_map.mpr ⟨w, hw, rfl⟩))

theorem mwriter_write_fanout_witness :
    mwriter.write resOne mwReady =
      some (firstErr (mwReady.ws.map resOne), mwReady.ws.length) :=
  (mwriter_write_fanout resOne mwReady rfl).1

/-- C5: `mwriter.Close` attempts the close of every registered adapter in
order (no short-circuit on failure), returns the first non-nil close error
and nil when none failed, and leaves the registry empty. -/
theorem mwriter_close_aggregate (cr : Nat → Option ZErr) (st : mwriter) :
    (mwriter.Close cr st).2.1 = st.ws ∧
    (mwriter.Close cr st).2.2.ws = [] ∧
    (mwriter.Close cr st).1 = firstErr (st.ws.map cr) ∧
    ((mwriter.Close cr st).1 = none ↔ ∀ w ∈ st.ws, cr w = none) := by
  have h := mwriter_closeLoop_none cr st.ws []
  refine ⟨?_, ?_, ?_, ?_⟩
  · simp [mwriter.Close, h]
  · simp [mwriter.Close, h]
  · simp [mwriter.Close, h]
  · rw [show (mwriter.Close cr st).1 = firstErr (st.ws.map cr) by simp [mwriter.Close, h]]
    rw [firstErr_eq_none]
    constructor
    · intro hall w hw
      exact hall (cr w) (List.mem_map.mpr ⟨w, hw, rfl⟩)
    · intro hall e he
      obtain ⟨w, hw, rfl⟩ := List.mem_map.mp he
      exact hall w hw

theorem mwriter_close_aggregate_witness :
    (mwriter.Close resOne mwReady).2.2.ws = [] :=
  (mwriter_close_aggregate resOne mwReady).2.1

/-- C6: with the gate open and the queue channel not closed, every
possible outcome of `lbwriter.write` is one of: the context-cancellation
error with the queue untouched (possible only when the context is
cancelled), a nil return with the message enqueued exactly once, or the
call still blocked — the latter only when the context is not cancelled
and the queue is full. -/
theorem lbwriter_write_contract (pick cancelled : Bool) (st : lbwriter)
    (m : Msg) (h1 : st.sem.ready = true) (h2 : st.closed = false) :
    (cancelled = true ∧
      lbwriter.write pick cancelled st m = some (some ZErr.ctxCanceled, st.c)) ∨
    (lbwriter.write pick cancelled st m = some (none, st.c ++ [m])) ∨
    (cancelled = false ∧ 10 ≤ st.c.length ∧
      lbwriter.write pick cancelled st m = none) := by
  cases cancelled with
  | false =>
      by_cases hd : st.c.length < 10
      · refine Or.inr (Or.inl ?_)
        simp [lbwriter.write, semaphore.lockCompletes, h1, h2, hd]
      · refine Or.inr (Or.inr ⟨rfl, by omega, ?_⟩)
        simp [lbwriter.write, semaphore.lockCompletes, h1, h2, hd]
  | true =>
      cases pick with
      | false =>
          by_cases hd : st.c.length < 10
          · refine Or.inr (Or.inl ?_)
            simp [lbwriter.write, semaphore.lockCompletes, h1, h2, hd]
          · refine Or.inl ⟨rfl, ?_⟩
            simp [lbwriter.write, semaphore.lockCompletes, h1, h2, hd]
      | true =>
          refine Or.inl ⟨rfl, ?_⟩
          simp [lbwriter.write, semaphore.lockCompletes, h1, h2]

theorem lbwriter_write_contract_witness :
    (true = true ∧
      lbwriter.write true true lbReady mOk = some (some ZErr.ctxCanceled, lbReady.c)) ∨
    (lbwriter.write true true lbReady mOk = some (none, lbReady.c ++ [mOk])) ∨
    (true = false ∧ 10 ≤ lbReady.c.length ∧
      lbwriter.write true true lbReady mOk = none) :=
  lbwriter_write_contract true true lbReady mOk rfl rfl

/-- C7: along any run of the `lbwriter.listen` loop, the number of copies
of every message value — queued, held by the worker, or delivered — is
conserved, so a message accepted by `write` is never silently dropped;
moreover when the worker holds a message whose write fails, its only
possible step requeues that same message on the shared queue and returns
the worker to its loop. -/
theorem lbwriter_listen_no_drop (fail : Msg → Bool) (s t : LBSys)
    (h : Relation.ReflTransGen (LBStep fail) s t) :
    (∀ m, msgCount m t = msgCount m s) ∧
    (∀ m q d u, fail m = true →
      LBStep fail ⟨q, WorkerSt.holding m, d⟩ u →
      u = ⟨q ++ [m], WorkerSt.idle, d⟩) := by
  constructor
  · intro m
    induction h with
    | refl => rfl
    | tail _ hbc ih => exact (lbstep_count fail _ _ hbc m).trans ih
  · intro m q d u hf hstep
    cases hstep with
    | deliverOk m2 q2 d2 h2 => rw [hf] at h2; cases h2
    | deliverFail m2 q2 d2 h2 => rfl

theorem lbwriter_listen_no_drop_witness :
    msgCount mOk sysReq = msgCount mOk sysHold :=
  (lbwriter_listen_no_drop failAll sysHold sysReq
    (Relation.ReflTransGen.single (LBStep.deliverFail mOk [] [] rfl))).1 mOk

/-- C8: a `qreader.listen` worker that reads a failing message while the
context is not cancelled enqueues every message read, the failing one
included and exactly once, then terminates with its deferred
`q.rmConn(r)` and `r.Close()` executed; a worker that observes
cancellation at its select exits without enqueuing the message of that
iteration (only the messages of earlier iterations are in the queue), its
deferred removal and close again executed. -/
theorem qreader_listen_exit (czf czt : Nat → Bool) (goods : List Msg)
    (bad : Msg) (goods2 : List Msg) (m2 : Msg) (rest2 : List Msg)
    (hcf : ∀ i, czf i = false) (hg : ∀ m ∈ goods, m.err = none)
    (hb : bad.err.isSome = true)
    (hlt : ∀ j, j < goods2.length → czt j = false)
    (hk : czt goods2.length = true) (hg2 : ∀ m ∈ goods2, m.err = none) :
    qreader.listen czf (goods ++ [bad]) =
      ⟨goods ++ [bad], ListenExit.onErr, true, true⟩ ∧
    mcount bad (goods ++ [bad]) = 1 ∧
    qreader.listen czt (goods2 ++ m2 :: rest2) =
      ⟨goods2, ListenExit.onCancel, true, true⟩ := by
  refine ⟨?_, ?_, ?_⟩
  · have := qreader_listenAux_err czf bad hcf hb goods hg 0 []
    simpa [qreader.listen] using this
  · rw [mcount_append]
    rw [mcount_zero_of_err bad hb goods hg]
    simp [mcount]
  · have := qreader_listenAux_cancel czt goods2 0 [] m2 rest2
      (fun j hj => by simpa using hlt j hj)
      (by simpa using hk) hg2
    simpa [qreader.listen] using this

theorem qreader_listen_exit_witness :
    qreader.listen czFalse [mOk, mBad] =
      ⟨[mOk, mBad], ListenExit.onErr, true, true⟩ ∧
    mcount mBad [mOk, mBad] = 1 ∧
    qreader.listen czTrue [mOk] = ⟨[], ListenExit.onCancel, true, true⟩ :=
  qreader_listen_exit czFalse czTrue [mOk] mBad [] mOk []
    (fun _ => rfl)
    (by intro m hm; rw [List.mem_singleton] at hm; rw [hm]; rfl)
    rfl
    (by intro j hj; simp at hj)
    rfl
    (by intro m hm; simp at hm)

/-- C9: `semaphore.lock` at the head of `qreader.read` completes exactly
when some `addConn` (the only caller of `enable`) has happened among the
operations applied to the pool so far, and once the gate is open any
further operations leave it open, so `lock` never blocks again. -/
theorem qreader_gate_lock_iff (ops extra : List QOp) :
    ((qreader.runOps ops).sem.lockCompletes = true ↔ ∃ r, QOp.add r ∈ ops) ∧
    ((qreader.runOps ops).sem.lockCompletes = true →
      (qreader.runOps (ops ++ extra)).sem.lockCompletes = true) := by
  have h1 : ∀ l : List QOp,
      (qreader.runOps l).sem.lockCompletes = l.any QOp.isAdd := by
    intro l
    simp [qreader.runOps, semaphore.lockCompletes, qreader_foldl_ready,
      qreader.new, semaphore.new]
  constructor
  · rw [h1]
    constructor
    · intro h
      obtain ⟨o, ho, hadd⟩ := List.any_eq_true.mp h
      cases o with
      | add r => exact ⟨r, ho⟩
      | remove r => simp [QOp.isAdd] at hadd
    · rintro ⟨r, hr⟩
      exact List.any_eq_true.mpr ⟨QOp.add r, hr, rfl⟩
  · intro h
    rw [h1] at h ⊢
    simp only [List.any_append, h, Bool.true_or]

theorem qreader_gate_lock_iff_witness :
    (qreader.runOps [QOp.add 0]).sem.lockCompletes = true :=
  (qreader_gate_lock_iff [QOp.add 0] []).1.mpr ⟨0, by simp⟩

/-- C10: once the gate has been opened by an `addConn` and the adapter has
then been removed, `mwriter.write` on the now-empty registry spawns no
goroutine, so `Wait` returns nil at once: a broadcast to zero connections
returns nil after zero write attempts, without blocking. -/
theorem mwriter_write_empty_broadcast (res : Nat → Option ZErr) (w : Nat) :
    mwriter.write res (mwriter.rmConn (mwriter.addConn mwriter.new w) w) =
      some (none, 0) := by
  simp [mwriter.write, mwriter.rmConn, mwriter.addConn, mwriter.new,
    semaphore.lockCompletes, semaphore_enable_serialized, removeFirst,
    firstErr, semaphore.new]

theorem mwriter_write_empty_broadcast_witness :
    mwriter.write resOne (mwriter.rmConn (mwriter.addConn mwriter.new 5) 5) =
      some (none, 0) :=
  mwriter_write_empty_broadcast resOne 5
